import Mathlib

/-!
Verification of the vitest-monocart-coverage adapter against its
natural-language specification.

The definitions below are a shallow embedding of the TypeScript sources:

* `src/reporter.ts`   — the coverage Accumulator (`MonocartReporter`)
* `src/config.ts`     — configuration resolution and the source filter
* `src/provider.ts`   — the in-process collection adapter
* `src/browser-provider.ts` — the browser collection adapter (queue + latch)
* `src/browser-runtime.ts`  — the browser URL filter

JavaScript strings are Lean `String`s; machine-level effects (the external
monocart report engine, the logger) are modelled as explicit event logs
inside the state records, so that "the engine's `add` was invoked with
batch b" becomes "b was appended to `addCalls`".  Fallible JavaScript
operations (URL parsing, `decodeURIComponent`) return `Option`.
-/

/-- One `{startOffset, endOffset, count}` range of a V8 function coverage
record (data model of `src/types.ts`). -/
structure CovRange where
  startOffset : Nat
  endOffset : Nat
  count : Nat
deriving DecidableEq, Repr

/-- One V8 function coverage record (data model of `src/types.ts`). -/
structure FunctionCov where
  functionName : String
  isBlockCoverage : Bool
  ranges : List CovRange
deriving DecidableEq, Repr

/-- A source map as far as this program touches it: the code only ever
rewrites the `sources` array; every other field of the map object is held
abstract in `payload` and is never modified. -/
structure SourceMap where
  sources : List String
  payload : String
deriving DecidableEq, Repr

/-- The JavaScript value found in an entry's `functions` field.  The source
is defensive about this field: it may be `undefined`, `null`, or any
non-array value, and only genuine arrays are kept. -/
inductive FunctionsField where
  | undef
  | nullv
  | boolv (b : Bool)
  | numv (n : Int)
  | strv (s : String)
  | objv
  | arr (fns : List FunctionCov)
deriving DecidableEq, Repr

/-- `Array.isArray` on the `functions` field. -/
def FunctionsField.isArray : FunctionsField → Bool
  | FunctionsField.arr _ => true
  | _ => false

/-- A coverage entry as it flows through the pipeline
(`ScriptCoverageWithOffset` in `src/types.ts`, plus the fields the
provider reads and writes: `source`, `sourceMap`, `scriptOffset`). -/
structure CoverageEntry where
  scriptId : String
  url : String
  source : Option String
  startOffset : Option Nat
  endOffset : Option Nat
  scriptOffset : Option Nat
  sourceMap : Option SourceMap
  functions : FunctionsField
deriving DecidableEq, Repr

/-- Observable state of the external monocart report engine handle
(`this.mcr` in `src/reporter.ts`): the list of batches passed to `add`,
and how many times `generate` was invoked.  The engine itself is opaque;
only its invocation log matters to the spec. -/
structure McrState where
  addCalls : List (List CoverageEntry)
  generateCalls : Nat
deriving DecidableEq, Repr

/-- State of a `MonocartReporter` instance (`src/reporter.ts`):
`coverageDataCollection`, the lazily created engine handle, and the
warnings logged so far. -/
structure ReporterState where
  coverageDataCollection : List CoverageEntry
  mcr : Option McrState
  warnings : List String
deriving DecidableEq, Repr

/-- A fresh reporter, as produced by `MonocartReporter.create`. -/
def ReporterState.init : ReporterState :=
  { coverageDataCollection := [], mcr := none, warnings := [] }

/-- The batches passed to the engine's `add` so far (empty before the
engine is lazily constructed). -/
def ReporterState.mcrAddCalls (st : ReporterState) : List (List CoverageEntry) :=
  match st.mcr with
  | some m => m.addCalls
  | none => []

/-- How many times the engine's `generate` ran so far. -/
def ReporterState.mcrGenerateCalls (st : ReporterState) : Nat :=
  match st.mcr with
  | some m => m.generateCalls
  | none => 0

/-- The per-entry normalization inside `addCoverageData`
(`src/reporter.ts` lines 68-71):
`{...entry, functions: Array.isArray(entry.functions) ? entry.functions : []}`. -/
def normalizeEntry (e : CoverageEntry) : CoverageEntry :=
  { e with functions := match e.functions with
      | FunctionsField.arr l => FunctionsField.arr l
      | _ => FunctionsField.arr [] }

/-- `initializeMCR` (`src/reporter.ts`): lazily construct the engine
handle on first use; a no-op if it already exists. -/
def initializeMCR (st : ReporterState) : ReporterState :=
  { st with mcr := some (st.mcr.getD { addCalls := [], generateCalls := 0 }) }

namespace MonocartReporter

/-- `MonocartReporter.addCoverageData` (`src/reporter.ts` lines 62-81):
normalize every entry's `functions`, append the normalized batch to
`coverageDataCollection`, lazily initialize the engine, and forward the
normalized batch to the engine's `add`. -/
def addCoverageData (st : ReporterState) (coverageData : List CoverageEntry) :
    ReporterState :=
  let normalizedData := coverageData.map normalizeEntry
  let st1 := { st with
    coverageDataCollection := st.coverageDataCollection ++ normalizedData }
  let st2 := initializeMCR st1
  { st2 with mcr := st2.mcr.map fun m =>
      { m with addCalls := m.addCalls ++ [normalizedData] } }

end MonocartReporter

/-- The `unknown`-typed `coverageData` argument of `generateReport`:
either absent (`undefined`), or some JavaScript value — only arrays of
coverage entries are usable, everything else is foreign-shaped input. -/
inductive ExtraData where
  | undef
  | nullv
  | boolv (b : Bool)
  | numv (n : Int)
  | strv (s : String)
  | arr (entries : List CoverageEntry)
deriving DecidableEq, Repr

/-- JavaScript truthiness of the `coverageData` argument (`if (coverageData)`).
`undefined`, `null`, `false`, `0` and `""` are falsy; every array is truthy. -/
def ExtraData.truthy : ExtraData → Bool
  | ExtraData.undef => false
  | ExtraData.nullv => false
  | ExtraData.boolv b => b
  | ExtraData.numv n => n != 0
  | ExtraData.strv s => s ≠ ""
  | ExtraData.arr _ => true

/-- `Array.isArray(coverageData)`. -/
def ExtraData.isArray : ExtraData → Bool
  | ExtraData.arr _ => true
  | _ => false

/-- The warning logged for truthy non-array extra data
(`src/reporter.ts` line 93-95). -/
def nonArrayWarning : String :=
  "Non-V8 coverage data provided to generateReport, skipping transformation"

namespace MonocartReporter

/-- `MonocartReporter.generateReport` (`src/reporter.ts` lines 83-111):
lazily initialize the engine; if the extra data is truthy, either feed it
through `addCoverageData` (arrays) or log a warning (anything else); then
invoke the engine's `generate`.  The engine's own success is modelled (a
failing `generate` would be logged and re-thrown; the claims under
verification are about the engine-succeeds path). -/
def generateReport (st : ReporterState) (coverageData : ExtraData) :
    ReporterState :=
  let st1 := initializeMCR st
  let st2 :=
    if coverageData.truthy then
      match coverageData with
      | ExtraData.arr l => addCoverageData st1 l
      | _ => { st1 with warnings := st1.warnings ++ [nonArrayWarning] }
    else st1
  { st2 with mcr := st2.mcr.map fun m =>
      { m with generateCalls := m.generateCalls + 1 } }

end MonocartReporter

/-- Infix (substring) test on character lists, used to model
JavaScript's `String.prototype.includes`. -/
def listInfix : List Char → List Char → Bool
  | _, [] => false
  | sub, l@(_ :: tl) => sub.isPrefixOf l || listInfix sub tl

/-- `s.includes(sub)` — JavaScript substring containment.  (The empty
pattern is contained in every string.) -/
def jsIncludes (s sub : String) : Bool :=
  sub.isEmpty || listInfix sub.toList s.toList

/-- The raw `meta.coverage` value received by the browser adapter's
`onAfterSuiteRun` (`src/browser-provider.ts` lines 106-113): either an
array, an object wrapping an array under `result`, or anything else. -/
inductive MetaCoverage where
  | arrv (l : List CoverageEntry)
  | wrapped (l : List CoverageEntry)
  | other
deriving DecidableEq, Repr

/-- Extraction of the coverage batch from `meta.coverage`
(`src/browser-provider.ts` lines 107-113). -/
def MetaCoverage.extract : MetaCoverage → List CoverageEntry
  | MetaCoverage.arrv l => l
  | MetaCoverage.wrapped l => l
  | MetaCoverage.other => []

/-- State of a `MonocartBrowserProvider` instance
(`src/browser-provider.ts`).  The shared promise chain `addQueue` is
modelled by the list `chain` of batches whose `addCoverageData` tasks
have been chained onto it, in chaining order, together with `settledLen`,
the length of the prefix of `chain` whose tasks have already settled
(i.e. whose adds have been applied to the reporter).  Awaiting the chain
as it stood at length `v` settles exactly the first `v` tasks; the
reference comparison `this.addQueue === current` is `chain.length = v`. -/
structure BrowserState where
  reporter : Option ReporterState
  chain : List (List CoverageEntry)
  settledLen : Nat
  didGenerateReports : Bool
deriving Repr

/-- Apply one settled `addCoverageData` task to the reporter. -/
def applyAdd (r : Option ReporterState) (batch : List CoverageEntry) :
    Option ReporterState :=
  r.map fun rs => MonocartReporter.addCoverageData rs batch

/-- `await current` where `current = this.addQueue`: every task chained
so far settles, applying its pending add to the reporter. -/
def settleChain (st : BrowserState) : BrowserState :=
  { st with
    reporter := (st.chain.drop st.settledLen).foldl applyAdd st.reporter
    settledLen := st.chain.length }

/-- New batches chained onto `addQueue` by `onAfterSuiteRun` calls that
land while an await is in flight. -/
def enqueueAll (st : BrowserState) (batches : List (List CoverageEntry)) :
    BrowserState :=
  { st with chain := st.chain ++ batches }

namespace MonocartBrowserProvider

/-- `MonocartBrowserProvider.onAfterSuiteRun`
(`src/browser-provider.ts` lines 100-129): extract the batch from the
meta object; when it is non-empty and the reporter exists, chain its
`addCoverageData` task onto the shared queue. -/
def onAfterSuiteRun (st : BrowserState) (metaCoverage : MetaCoverage) :
    BrowserState :=
  let coverageData := metaCoverage.extract
  if coverageData.length > 0 ∧ st.reporter.isSome then
    { st with chain := st.chain ++ [coverageData] }
  else st

/-- The drain loop of `reportCoverage` (`src/browser-provider.ts` lines
145-151).  `sched` is the environment's interleaving: `sched[i]` lists
the batches that concurrent `onAfterSuiteRun` calls chain onto the queue
while the `i`-th `await current` is in flight.  An iteration snapshots
`current := addQueue`, awaits it (settling every task chained so far),
absorbs the concurrently-enqueued batches, and exits as soon as the
queue reference is unchanged (no batches arrived during the await); once
the finite schedule is exhausted no further work arrives and the next
await exits the loop. -/
def drainLoop (st : BrowserState) :
    (sched : List (List (List CoverageEntry))) → BrowserState
  | [] => settleChain st
  | ks :: rest =>
    let st1 := enqueueAll (settleChain st) ks
    if ks = [] then st1 else drainLoop st1 rest

/-- `MonocartBrowserProvider.reportCoverage`
(`src/browser-provider.ts` lines 134-158): return immediately when the
`didGenerateReports` latch is set or no reporter exists; otherwise drain
the queue to its fixed point, set the latch, and invoke the reporter's
`generateReport`.  The `allTestsRun` flag of the report context is taken
as an argument and — like the ignored `_reportContext` parameter in the
source — never consulted. -/
def reportCoverage (st : BrowserState) (allTestsRun : Bool)
    (sched : List (List (List CoverageEntry))) : BrowserState :=
  if st.didGenerateReports ∨ st.reporter.isNone then st
  else
    let st1 := drainLoop st sched
    { st1 with
      didGenerateReports := true
      reporter := st1.reporter.map fun r =>
        MonocartReporter.generateReport r ExtraData.undef }

/-- `N` sequential `reportCoverage` invocations with `allTestsRun = true`
(one schedule of concurrent enqueues per invocation), each awaited by the
host before the next one starts. -/
def reportCoverageSeq (st : BrowserState)
    (scheds : List (List (List (List CoverageEntry)))) : BrowserState :=
  scheds.foldl (fun s sched => reportCoverage s true sched) st

end MonocartBrowserProvider

/-- How many times the underlying report engine's `generate` has run, as
seen through the browser adapter's reporter. -/
def BrowserState.generateCalls (st : BrowserState) : Nat :=
  match st.reporter with
  | some r => r.mcrGenerateCalls
  | none => 0

section ReporterLemmas

/-- `initializeMCR` does not change the engine's recorded `add` calls. -/
lemma initializeMCR_mcrAddCalls (st : ReporterState) :
    (initializeMCR st).mcrAddCalls = st.mcrAddCalls := by
  cases h : st.mcr <;>
    simp [initializeMCR, ReporterState.mcrAddCalls, h, Option.getD]

/-- `initializeMCR` does not change the engine's `generate` count. -/
lemma initializeMCR_mcrGenerateCalls (st : ReporterState) :
    (initializeMCR st).mcrGenerateCalls = st.mcrGenerateCalls := by
  cases h : st.mcr <;>
    simp [initializeMCR, ReporterState.mcrGenerateCalls, h, Option.getD]

/-- After `addCoverageData`, the engine handle exists and its `add` log
has gained exactly the normalized batch. -/
lemma addCoverageData_mcrAddCalls (st : ReporterState)
    (data : List CoverageEntry) :
    (MonocartReporter.addCoverageData st data).mcrAddCalls =
      st.mcrAddCalls ++ [data.map normalizeEntry] := by
  cases h : st.mcr <;>
    simp [MonocartReporter.addCoverageData, initializeMCR,
      ReporterState.mcrAddCalls, h, Option.getD]

/-- `addCoverageData` never touches the engine's `generate` count. -/
lemma addCoverageData_mcrGenerateCalls (st : ReporterState)
    (data : List CoverageEntry) :
    (MonocartReporter.addCoverageData st data).mcrGenerateCalls =
      st.mcrGenerateCalls := by
  cases h : st.mcr <;>
    simp [MonocartReporter.addCoverageData, initializeMCR,
      ReporterState.mcrGenerateCalls, h, Option.getD]

/-- `addCoverageData` leaves the warning log alone. -/
lemma addCoverageData_warnings (st : ReporterState)
    (data : List CoverageEntry) :
    (MonocartReporter.addCoverageData st data).warnings = st.warnings := by
  simp [MonocartReporter.addCoverageData, initializeMCR]

/-- `generateReport` with absent extra data bumps the `generate` count by
one and adds nothing. -/
lemma generateReport_undef_mcrGenerateCalls (st : ReporterState) :
    (MonocartReporter.generateReport st ExtraData.undef).mcrGenerateCalls =
      st.mcrGenerateCalls + 1 := by
  cases h : st.mcr <;>
    simp [MonocartReporter.generateReport, initializeMCR, ExtraData.truthy,
      ReporterState.mcrGenerateCalls, h, Option.getD]

end ReporterLemmas

/-- Claim C3: every batch passed to `addCoverageData` is forwarded to the
engine's `add` as exactly the normalized batch: entries whose `functions`
is `undefined`, `null` or any other non-array value are forwarded with
`functions = []`, entries whose `functions` is an array are forwarded
completely unchanged, and no other field of any entry is altered. -/
theorem addCoverageData_normalizes_functions (st : ReporterState)
    (data : List CoverageEntry) :
    ((MonocartReporter.addCoverageData st data).mcrAddCalls =
        st.mcrAddCalls ++ [data.map normalizeEntry]) ∧
      ∀ e : CoverageEntry,
        (e.functions.isArray = true → normalizeEntry e = e) ∧
        (e.functions.isArray = false →
          normalizeEntry e = { e with functions := FunctionsField.arr [] }) := by
  refine ⟨addCoverageData_mcrAddCalls st data, fun e => ⟨?_, ?_⟩⟩ <;>
    (cases e with
      | mk sid url src so eo sco sm fns =>
        cases fns <;> simp [FunctionsField.isArray, normalizeEntry])

/-- A coverage entry with a non-array (`undefined`) `functions` field. -/
def entryUndefFns : CoverageEntry :=
  { scriptId := "11", url := "file:///proj/src/a.ts", source := none,
    startOffset := none, endOffset := none, scriptOffset := none,
    sourceMap := none, functions := FunctionsField.undef }

/-- A coverage entry whose `functions` field is a genuine array. -/
def entryArrFns : CoverageEntry :=
  { scriptId := "12", url := "file:///proj/src/b.ts", source := none,
    startOffset := none, endOffset := none, scriptOffset := none,
    sourceMap := none,
    functions := FunctionsField.arr
      [{ functionName := "f", isBlockCoverage := true,
         ranges := [{ startOffset := 0, endOffset := 5, count := 1 }] }] }

/-- Witness for C3 at concrete entries: a `functions: undefined` entry is
forwarded with `functions = []` and an array-valued entry unchanged. -/
theorem addCoverageData_normalizes_functions_witness :
    normalizeEntry entryUndefFns =
        { entryUndefFns with functions := FunctionsField.arr [] } ∧
      normalizeEntry entryArrFns = entryArrFns :=
  ⟨((addCoverageData_normalizes_functions ReporterState.init
      [entryUndefFns, entryArrFns]).2 entryUndefFns).2 rfl,
   ((addCoverageData_normalizes_functions ReporterState.init
      [entryUndefFns, entryArrFns]).2 entryArrFns).1 rfl⟩

/-- Claim C8: `generateReport` on a truthy non-array value does not call
the engine's `add`, logs the "skipping transformation" warning, and still
calls `generate` exactly once (no exception path is taken); on an array it
first runs the array through `addCoverageData` and then calls `generate`. -/
theorem generateReport_non_array_warns (st : ReporterState) (v : ExtraData)
    (l : List CoverageEntry) (hT : v.truthy = true) (hA : v.isArray = false) :
    ((MonocartReporter.generateReport st v).mcrAddCalls = st.mcrAddCalls ∧
      (MonocartReporter.generateReport st v).mcrGenerateCalls =
        st.mcrGenerateCalls + 1 ∧
      (MonocartReporter.generateReport st v).warnings =
        st.warnings ++ [nonArrayWarning] ∧
      jsIncludes nonArrayWarning "skipping transformation" = true) ∧
    ((MonocartReporter.generateReport st (ExtraData.arr l)).mcrAddCalls =
        st.mcrAddCalls ++ [l.map normalizeEntry] ∧
      (MonocartReporter.generateReport st (ExtraData.arr l)).mcrGenerateCalls =
        st.mcrGenerateCalls + 1) := by
  refine ⟨⟨?_, ?_, ?_, by decide⟩, ?_, ?_⟩
  · cases v <;> simp_all [MonocartReporter.generateReport, ExtraData.truthy,
      ExtraData.isArray] <;>
      cases h : st.mcr <;>
        simp [initializeMCR, ReporterState.mcrAddCalls, h, Option.getD]
  · cases v <;> simp_all [MonocartReporter.generateReport, ExtraData.truthy,
      ExtraData.isArray] <;>
      cases h : st.mcr <;>
        simp [initializeMCR, ReporterState.mcrGenerateCalls, h, Option.getD]
  · cases v <;> simp_all [MonocartReporter.generateReport, ExtraData.truthy,
      ExtraData.isArray, initializeMCR]
  · have h1 : (MonocartReporter.generateReport st (ExtraData.arr l)).mcrAddCalls
        = (MonocartReporter.addCoverageData (initializeMCR st) l).mcrAddCalls := by
      cases h : (MonocartReporter.addCoverageData (initializeMCR st) l).mcr <;>
        simp [MonocartReporter.generateReport, ExtraData.truthy,
          ReporterState.mcrAddCalls, h]
    rw [h1, addCoverageData_mcrAddCalls, initializeMCR_mcrAddCalls]
  · have h1 : (MonocartReporter.generateReport st (ExtraData.arr l)).mcrGenerateCalls
        = (MonocartReporter.addCoverageData (initializeMCR st) l).mcrGenerateCalls
            + 1 := by
      have hs : ((MonocartReporter.addCoverageData (initializeMCR st) l)).mcr.isSome
          = true := by
        simp [MonocartReporter.addCoverageData, initializeMCR]
      cases h : (MonocartReporter.addCoverageData (initializeMCR st) l).mcr with
      | none => rw [h] at hs; simp at hs
      | some m =>
        simp [MonocartReporter.generateReport, ExtraData.truthy,
          ReporterState.mcrGenerateCalls, h]
    rw [h1, addCoverageData_mcrGenerateCalls, initializeMCR_mcrGenerateCalls]

/-- Witness for C8 at the spec's concrete scenario:
`generateReport("not-an-array")`. -/
theorem generateReport_non_array_warns_witness :
    (MonocartReporter.generateReport ReporterState.init
        (ExtraData.strv "not-an-array")).mcrAddCalls =
        ReporterState.init.mcrAddCalls ∧
      (MonocartReporter.generateReport ReporterState.init
        (ExtraData.strv "not-an-array")).mcrGenerateCalls =
        ReporterState.init.mcrGenerateCalls + 1 ∧
      (MonocartReporter.generateReport ReporterState.init
        (ExtraData.strv "not-an-array")).warnings =
        ReporterState.init.warnings ++ [nonArrayWarning] ∧
      jsIncludes nonArrayWarning "skipping transformation" = true :=
  (generateReport_non_array_warns ReporterState.init
    (ExtraData.strv "not-an-array") [] (by decide) rfl).1

/-- The engine `generate` count seen through an optional reporter. -/
def optGenerateCalls : Option ReporterState → Nat
  | some r => r.mcrGenerateCalls
  | none => 0

section BrowserLemmas

lemma browserState_generateCalls (st : BrowserState) :
    st.generateCalls = optGenerateCalls st.reporter := by
  cases h : st.reporter <;> simp [BrowserState.generateCalls, optGenerateCalls, h]

/-- Settling one chained add changes neither the `generate` count nor the
existence of the reporter. -/
lemma applyAdd_generateCalls (r : Option ReporterState)
    (b : List CoverageEntry) :
    optGenerateCalls (applyAdd r b) = optGenerateCalls r ∧
      (applyAdd r b).isSome = r.isSome := by
  cases r <;>
    simp [applyAdd, optGenerateCalls, addCoverageData_mcrGenerateCalls]

/-- Settling any sequence of chained adds preserves the `generate` count
and reporter existence. -/
lemma foldl_applyAdd_generateCalls (l : List (List CoverageEntry)) :
    ∀ r : Option ReporterState,
      optGenerateCalls (l.foldl applyAdd r) = optGenerateCalls r ∧
        (l.foldl applyAdd r).isSome = r.isSome := by
  induction l with
  | nil => intro r; simp
  | cons b tl ih =>
    intro r
    have h := applyAdd_generateCalls r b
    have h2 := ih (applyAdd r b)
    simp only [List.foldl_cons]
    exact ⟨h2.1.trans h.1, h2.2.trans h.2⟩

/-- Settling chained adds on an existing reporter is folding the
reporter-level `addCoverageData` over the batches. -/
lemma foldl_applyAdd_some (l : List (List CoverageEntry)) :
    ∀ r : ReporterState,
      l.foldl applyAdd (some r) =
        some (l.foldl MonocartReporter.addCoverageData r) := by
  induction l with
  | nil => intro r; simp
  | cons b tl ih => intro r; simp [applyAdd, ih]

/-- The drain loop touches neither the latch, nor the `generate` count,
nor reporter existence. -/
lemma drainLoop_invariants (sched : List (List (List CoverageEntry))) :
    ∀ st : BrowserState,
      (MonocartBrowserProvider.drainLoop st sched).didGenerateReports =
          st.didGenerateReports ∧
        optGenerateCalls (MonocartBrowserProvider.drainLoop st sched).reporter =
          optGenerateCalls st.reporter ∧
        (MonocartBrowserProvider.drainLoop st sched).reporter.isSome =
          st.reporter.isSome := by
  induction sched with
  | nil =>
    intro st
    have h := foldl_applyAdd_generateCalls (st.chain.drop st.settledLen)
      st.reporter
    simp [MonocartBrowserProvider.drainLoop, settleChain, h.1, h.2]
  | cons ks rest ih =>
    intro st
    by_cases hks : ks = []
    · subst hks
      have h := foldl_applyAdd_generateCalls (st.chain.drop st.settledLen)
        st.reporter
      simp [MonocartBrowserProvider.drainLoop, settleChain, enqueueAll,
        h.1, h.2]
    · have h := foldl_applyAdd_generateCalls (st.chain.drop st.settledLen)
        st.reporter
      have h2 := ih (enqueueAll (settleChain st) ks)
      simp only [MonocartBrowserProvider.drainLoop, if_neg hks]
      refine ⟨?_, ?_, ?_⟩
      · rw [h2.1]; simp [enqueueAll, settleChain]
      · rw [h2.2.1]; simp [enqueueAll, settleChain, h.1]
      · rw [h2.2.2]; simp [enqueueAll, settleChain, h.2]

/-- Fixed point: when the drain loop exits, awaiting the chain left its
reference unchanged, so every task chained onto the queue has settled. -/
lemma drainLoop_fixed_point (sched : List (List (List CoverageEntry))) :
    ∀ st : BrowserState,
      (MonocartBrowserProvider.drainLoop st sched).settledLen =
        (MonocartBrowserProvider.drainLoop st sched).chain.length := by
  induction sched with
  | nil => intro st; simp [MonocartBrowserProvider.drainLoop, settleChain]
  | cons ks rest ih =>
    intro st
    by_cases hks : ks = []
    · subst hks
      simp [MonocartBrowserProvider.drainLoop, settleChain, enqueueAll]
    · simp only [MonocartBrowserProvider.drainLoop, if_neg hks]
      exact ih _

/-- The drain loop only appends to the chain. -/
lemma drainLoop_chain_extends (sched : List (List (List CoverageEntry))) :
    ∀ st : BrowserState,
      ∃ ext, (MonocartBrowserProvider.drainLoop st sched).chain =
        st.chain ++ ext := by
  induction sched with
  | nil =>
    intro st
    exact ⟨[], by simp [MonocartBrowserProvider.drainLoop, settleChain]⟩
  | cons ks rest ih =>
    intro st
    by_cases hks : ks = []
    · subst hks
      exact ⟨[], by simp [MonocartBrowserProvider.drainLoop, settleChain,
        enqueueAll]⟩
    · simp only [MonocartBrowserProvider.drainLoop, if_neg hks]
      obtain ⟨ext, hext⟩ := ih (enqueueAll (settleChain st) ks)
      exact ⟨ks ++ ext, by
        rw [hext]; simp [enqueueAll, settleChain, List.append_assoc]⟩

/-- No data loss: at loop exit, the reporter state is the initial
reporter with every not-yet-settled batch of the final chain folded in —
including batches enqueued while the loop was waiting. -/
lemma drainLoop_reporter (sched : List (List (List CoverageEntry))) :
    ∀ st : BrowserState, st.settledLen ≤ st.chain.length →
      (MonocartBrowserProvider.drainLoop st sched).reporter =
        ((MonocartBrowserProvider.drainLoop st sched).chain.drop
          st.settledLen).foldl applyAdd st.reporter := by
  induction sched with
  | nil => intro st h; simp [MonocartBrowserProvider.drainLoop, settleChain]
  | cons ks rest ih =>
    intro st h
    by_cases hks : ks = []
    · subst hks
      simp [MonocartBrowserProvider.drainLoop, settleChain, enqueueAll]
    · simp only [MonocartBrowserProvider.drainLoop, if_neg hks]
      set st1 := enqueueAll (settleChain st) ks with hst1
      have h1 : st1.settledLen ≤ st1.chain.length := by
        simp [hst1, enqueueAll, settleChain]
      have hrep := ih st1 h1
      obtain ⟨ext, hext⟩ := drainLoop_chain_extends rest st1
      have hchain : (MonocartBrowserProvider.drainLoop st1 rest).chain =
          st.chain ++ (ks ++ ext) := by
        rw [hext]; simp [hst1, enqueueAll, settleChain, List.append_assoc]
      rw [hrep, hchain]
      have hd1 : ((st.chain ++ (ks ++ ext)).drop st1.settledLen) = ks ++ ext := by
        have : st1.settledLen = st.chain.length := by
          simp [hst1, enqueueAll, settleChain]
        rw [this, List.drop_append_of_le_length (Nat.le_refl _)]
        simp
      have hd2 : ((st.chain ++ (ks ++ ext)).drop st.settledLen) =
          st.chain.drop st.settledLen ++ (ks ++ ext) :=
        List.drop_append_of_le_length h
      rw [hd1, hd2, List.foldl_append]
      have hrep1 : st1.reporter =
          (st.chain.drop st.settledLen).foldl applyAdd st.reporter := by
        simp [hst1, enqueueAll, settleChain]
      rw [hrep1]
      simp [List.foldl_append]

end BrowserLemmas

/-- With the one-shot latch already set, `reportCoverage` returns
immediately without touching any state. -/
lemma reportCoverage_latch_set (st : BrowserState) (b : Bool)
    (sched : List (List (List CoverageEntry)))
    (h : st.didGenerateReports = true) :
    MonocartBrowserProvider.reportCoverage st b sched = st := by
  simp [MonocartBrowserProvider.reportCoverage, h]

/-- With the latch unset and a reporter present, one `reportCoverage`
call — whatever its `allTestsRun` flag — sets the latch, drains the queue
to its fixed point, and fires `generate` exactly once. -/
lemma reportCoverage_fires (st : BrowserState) (b : Bool)
    (sched : List (List (List CoverageEntry)))
    (hd : st.didGenerateReports = false) (hr : st.reporter.isSome = true) :
    (MonocartBrowserProvider.reportCoverage st b sched).didGenerateReports
        = true ∧
      (MonocartBrowserProvider.reportCoverage st b sched).generateCalls =
        st.generateCalls + 1 ∧
      (MonocartBrowserProvider.reportCoverage st b sched).settledLen =
        (MonocartBrowserProvider.reportCoverage st b sched).chain.length := by
  obtain ⟨r, hrr⟩ := Option.isSome_iff_exists.mp hr
  have hinv := drainLoop_invariants sched st
  obtain ⟨rd, hrd⟩ := Option.isSome_iff_exists.mp (hinv.2.2.trans hr)
  have hfix := drainLoop_fixed_point sched st
  refine ⟨?_, ?_, ?_⟩
  · simp [MonocartBrowserProvider.reportCoverage, hd, hrr]
  · have hres : (MonocartBrowserProvider.reportCoverage st b sched).reporter =
        some (MonocartReporter.generateReport rd ExtraData.undef) := by
      simp [MonocartBrowserProvider.reportCoverage, hd, hrr, hrd]
    rw [browserState_generateCalls, hres, browserState_generateCalls st]
    have : rd.mcrGenerateCalls = optGenerateCalls st.reporter := by
      have h2 := hinv.2.1
      rw [hrd] at h2
      exact h2
    simp [optGenerateCalls, generateReport_undef_mcrGenerateCalls, this]
  · simp [MonocartBrowserProvider.reportCoverage, hd, hrr, hfix]

/-- After the latch is set, any further sequence of `reportCoverage`
calls is a no-op. -/
lemma reportCoverageSeq_after_latch
    (scheds : List (List (List (List CoverageEntry)))) :
    ∀ st : BrowserState, st.didGenerateReports = true →
      MonocartBrowserProvider.reportCoverageSeq st scheds = st := by
  induction scheds with
  | nil => intro st _; rfl
  | cons s rest ih =>
    intro st h
    show MonocartBrowserProvider.reportCoverageSeq
      (MonocartBrowserProvider.reportCoverage st true s) rest = st
    rw [reportCoverage_latch_set st true s h]
    exact ih st h

/-- Claim C1: on an adapter whose reporter is initialized, N ≥ 1
sequential `reportCoverage` invocations with `allTestsRun = true` invoke
the underlying engine's `generate` exactly once: the whole sequence
collapses to the first invocation, which sets the one-shot
`didGenerateReports` latch, and the `generate` count rises by exactly
one regardless of N. -/
theorem reportCoverage_generates_once (st : BrowserState)
    (s : List (List (List CoverageEntry)))
    (rest : List (List (List (List CoverageEntry))))
    (hd : st.didGenerateReports = false) (hr : st.reporter.isSome = true) :
    MonocartBrowserProvider.reportCoverageSeq st (s :: rest) =
        MonocartBrowserProvider.reportCoverage st true s ∧
      (MonocartBrowserProvider.reportCoverageSeq st (s :: rest)).generateCalls
        = st.generateCalls + 1 ∧
      (MonocartBrowserProvider.reportCoverageSeq st (s :: rest)).didGenerateReports
        = true := by
  have hfire := reportCoverage_fires st true s hd hr
  have hseq : MonocartBrowserProvider.reportCoverageSeq st (s :: rest) =
      MonocartBrowserProvider.reportCoverage st true s := by
    show MonocartBrowserProvider.reportCoverageSeq
      (MonocartBrowserProvider.reportCoverage st true s) rest =
        MonocartBrowserProvider.reportCoverage st true s
    exact reportCoverageSeq_after_latch rest _ hfire.1
  refine ⟨hseq, ?_, ?_⟩
  · rw [hseq]; exact hfire.2.1
  · rw [hseq]; exact hfire.1

/-- A browser adapter state with an initialized (fresh) reporter, one
batch already chained and not yet settled, and the latch unset. -/
def browserState0 : BrowserState :=
  { reporter := some ReporterState.init, chain := [[entryArrFns]],
    settledLen := 0, didGenerateReports := false }

/-- Witness for C1: two sequential `reportCoverage` invocations on a
concrete adapter state generate exactly once. -/
theorem reportCoverage_generates_once_witness :
    (MonocartBrowserProvider.reportCoverageSeq browserState0
        [[], []]).generateCalls = browserState0.generateCalls + 1 ∧
      (MonocartBrowserProvider.reportCoverageSeq browserState0
        [[], []]).didGenerateReports = true :=
  (reportCoverage_generates_once browserState0 [] [[]] rfl rfl).2

/-- Claim C2: `reportCoverage` drains the shared chain to a stable fixed
point — at loop exit every task chained onto the queue (including
batches enqueued while the loop was awaiting) has settled — and the
final report is generated from the reporter with every one of those
batches folded in via `addCoverageData`, so no completed suite's data is
lost. -/
theorem reportCoverage_drains_to_fixed_point (st : BrowserState)
    (sched : List (List (List CoverageEntry))) (r : ReporterState)
    (hr : st.reporter = some r) (hd : st.didGenerateReports = false)
    (hs : st.settledLen ≤ st.chain.length) :
    ((MonocartBrowserProvider.drainLoop st sched).settledLen =
        (MonocartBrowserProvider.drainLoop st sched).chain.length) ∧
      (MonocartBrowserProvider.reportCoverage st true sched).reporter =
        some (MonocartReporter.generateReport
          (((MonocartBrowserProvider.drainLoop st sched).chain.drop
              st.settledLen).foldl MonocartReporter.addCoverageData r)
          ExtraData.undef) ∧
      (MonocartBrowserProvider.reportCoverage st true sched).didGenerateReports
        = true := by
  have hfix := drainLoop_fixed_point sched st
  have hrep := drainLoop_reporter sched st hs
  rw [hr, foldl_applyAdd_some] at hrep
  refine ⟨hfix, ?_, ?_⟩
  · simp [MonocartBrowserProvider.reportCoverage, hd, hr, hrep]
  · simp [MonocartBrowserProvider.reportCoverage, hd, hr]

/-- Witness for C2: a concrete drain in which a new batch arrives while
the loop is awaiting; the fixed point still settles everything before
the report is generated. -/
theorem reportCoverage_drains_to_fixed_point_witness :
    ((MonocartBrowserProvider.drainLoop browserState0
        [[[entryUndefFns]]]).settledLen =
      (MonocartBrowserProvider.drainLoop browserState0
        [[[entryUndefFns]]]).chain.length) ∧
      (MonocartBrowserProvider.reportCoverage browserState0 true
          [[[entryUndefFns]]]).reporter =
        some (MonocartReporter.generateReport
          (((MonocartBrowserProvider.drainLoop browserState0
              [[[entryUndefFns]]]).chain.drop
                browserState0.settledLen).foldl
            MonocartReporter.addCoverageData ReporterState.init)
          ExtraData.undef) ∧
      (MonocartBrowserProvider.reportCoverage browserState0 true
        [[[entryUndefFns]]]).didGenerateReports = true :=
  reportCoverage_drains_to_fixed_point browserState0 [[[entryUndefFns]]]
    ReporterState.init rfl rfl (Nat.zero_le _)

/-- Claim C10 (implicit): the browser adapter's `reportCoverage` never
consults the `allTestsRun` flag of its report context — the result is
the same for every flag value, and the very first invocation, even with
`allTestsRun = false` while suites are still pending, drains the queue,
sets the latch and fires `generate`. -/
theorem reportCoverage_ignores_allTestsRun (st : BrowserState) (b : Bool)
    (sched : List (List (List CoverageEntry)))
    (hd : st.didGenerateReports = false) (hr : st.reporter.isSome = true) :
    (MonocartBrowserProvider.reportCoverage st b sched =
        MonocartBrowserProvider.reportCoverage st true sched) ∧
      (MonocartBrowserProvider.reportCoverage st false
        sched).didGenerateReports = true ∧
      (MonocartBrowserProvider.reportCoverage st false sched).generateCalls =
        st.generateCalls + 1 ∧
      (MonocartBrowserProvider.reportCoverage st false sched).settledLen =
        (MonocartBrowserProvider.reportCoverage st false sched).chain.length := by
  have hfire := reportCoverage_fires st false sched hd hr
  exact ⟨rfl, hfire.1, hfire.2.1, hfire.2.2⟩

/-- Witness for C10: on a concrete adapter state, calling
`reportCoverage` once with `allTestsRun = false` already generates. -/
theorem reportCoverage_ignores_allTestsRun_witness :
    (MonocartBrowserProvider.reportCoverage browserState0 false
        []).didGenerateReports = true ∧
      (MonocartBrowserProvider.reportCoverage browserState0 false
        []).generateCalls = browserState0.generateCalls + 1 :=
  ⟨(reportCoverage_ignores_allTestsRun browserState0 false [] rfl rfl).2.1,
   (reportCoverage_ignores_allTestsRun browserState0 false [] rfl rfl).2.2.1⟩

/-- JavaScript `String.prototype.startsWith`, on the character data (the
core `String.startsWith` is not kernel-reducible). -/
def jsStartsWith (s p : String) : Bool :=
  p.toList.isPrefixOf s.toList

/-- JavaScript `String.prototype.endsWith`. -/
def jsEndsWith (s p : String) : Bool :=
  p.toList.reverse.isPrefixOf s.toList.reverse

/-- Split a character list on a separator character (model of splitting
a path on `/`). -/
def splitChar (sep : Char) : List Char → List (List Char)
  | [] => [[]]
  | c :: tl =>
    match splitChar sep tl with
    | [] => [[c]]
    | h :: t => if c = sep then [] :: h :: t else (c :: h) :: t

/-- Split a string on a separator character into segments. -/
def splitSegs (s : String) (sep : Char) : List String :=
  (splitChar sep s.toList).map String.mk

/-- Replace every backslash by a forward slash — `.replace(/\\/g, '/')`. -/
def backslashToSlash (s : String) : String :=
  String.mk (s.toList.map fun c => if c = '\\' then '/' else c)

/-- Segment resolution step of POSIX `path.normalize`: drop empty and `.`
segments, let `..` pop the previous segment (absolute paths drop leading
`..`s, relative paths keep them). -/
def normalizeSegments (isAbs : Bool) (segs : List String) : List String :=
  (segs.foldl
    (fun acc s =>
      if s = "" ∨ s = "." then acc
      else if s = ".." then
        match acc with
        | [] => if isAbs then [] else [".."]
        | t :: rest => if t = ".." then ".." :: t :: rest else rest
      else s :: acc)
    []).reverse

/-- Model of Node's POSIX `path.normalize` (the `normalize` import in
`src/config.ts`): collapse separators, resolve `.` and `..`, preserve a
trailing slash, return `.` for the empty result. -/
def pathNormalize (p : String) : String :=
  if p = "" then "."
  else
    let isAbs := jsStartsWith p "/"
    let segs := normalizeSegments isAbs (splitSegs p '/')
    let core := String.intercalate "/" segs
    let base := (if isAbs then "/" else "") ++ core
    let base2 := if base = "" then "." else base
    if jsEndsWith p "/" ∧ base2 ≠ "/" ∧ base2 ≠ "." ∧ segs ≠ [] then
      base2 ++ "/"
    else base2

/-- Model of Node's POSIX `path.resolve` of one path against a base
directory. -/
def pathResolve (base p : String) : String :=
  if jsStartsWith p "/" then pathNormalize p
  else pathNormalize (base ++ "/" ++ p)

/-- Length of the common prefix of two segment lists. -/
def commonPrefixLen : List String → List String → Nat
  | a :: as, b :: bs => if a = b then commonPrefixLen as bs + 1 else 0
  | _, _ => 0

/-- Model of Node's POSIX `path.relative(fromP, toP)`.  Node resolves
both arguments against `process.cwd()`; the embedding takes that base as
an explicit argument (at every call site in the source the base and the
`fromP` argument are the same working directory). -/
def pathRelative (fromP toP base : String) : String :=
  let f := pathResolve base fromP
  let t := pathResolve base toP
  let fsegs := (splitSegs f '/').filter (fun s => s ≠ "")
  let tsegs := (splitSegs t '/').filter (fun s => s ≠ "")
  let common := commonPrefixLen fsegs tsegs
  String.intercalate "/"
    (List.replicate (fsegs.length - common) ".." ++ tsegs.drop common)

/-- `normalizePath` (`src/config.ts` lines 72-74): POSIX-normalize and
convert backslashes to forward slashes. -/
def normalizePath (filePath : String) : String :=
  backslashToSlash (pathNormalize filePath)

/-- `toRelativePath` (`src/config.ts` lines 79-90): strip the normalized
cwd prefix plus separator when the path starts with it, otherwise fall
back to `path.relative`. -/
def toRelativePath (filePath cwd : String) : String :=
  let normalized := normalizePath filePath
  let cwdNormalized := normalizePath cwd
  if jsStartsWith normalized cwdNormalized then
    normalized.drop (cwdNormalized.length + 1)
  else normalizePath (pathRelative cwd filePath cwd)

/-- Pattern normalization inside `createSourceFilter`
(`src/config.ts` lines 101-103): strip one leading `./`, convert
backslashes. -/
def normalizePattern (pattern : String) : String :=
  backslashToSlash (if jsStartsWith pattern "./" then pattern.drop 2 else pattern)

/-- `createSourceFilter` (`src/config.ts` lines 95-134), parametric in
the external picomatch compiler `pm` (pattern ↦ path predicate):
normalize the patterns, compile matchers, and return the predicate that
converts the path to project-relative form, rejects on any exclude
match, then requires an include match when include patterns exist. -/
def createSourceFilter (pm : String → String → Bool)
    (includePatterns excludePatterns : List String) (cwd : String) :
    String → Bool :=
  let normalizedInclude := includePatterns.map normalizePattern
  let normalizedExclude := excludePatterns.map normalizePattern
  let includeMatchers := normalizedInclude.map pm
  let excludeMatchers := normalizedExclude.map pm
  fun sourcePath =>
    let rel := toRelativePath sourcePath cwd
    if excludeMatchers.any (fun m => m rel) then false
    else if includeMatchers.length > 0 then
      includeMatchers.any (fun m => m rel)
    else true

/-- Intra-segment glob match, fuel-indexed so the kernel can evaluate it
(every recursive call shrinks `p.length + x.length`, so
`p.length + x.length + 1` fuel never runs out): `*` matches any run of
characters within a segment, `?` one character, anything else literally. -/
def segMatchAux : Nat → List Char → List Char → Bool
  | 0, _, _ => false
  | fuel + 1, p, x =>
    match p, x with
    | [], [] => true
    | [], _ :: _ => false
    | '*' :: ps, [] => segMatchAux fuel ps []
    | '*' :: ps, y :: ys =>
      segMatchAux fuel ps (y :: ys) || segMatchAux fuel ('*' :: ps) ys
    | '?' :: _, [] => false
    | '?' :: ps, _ :: ys => segMatchAux fuel ps ys
    | _ :: _, [] => false
    | c :: ps, y :: ys => (c = y) && segMatchAux fuel ps ys

/-- Intra-segment glob match with adequate fuel. -/
def segMatch (p x : List Char) : Bool :=
  segMatchAux (p.length + x.length + 1) p x

/-- Segment-level glob match, fuel-indexed: `**` matches zero or more
whole segments. -/
def matchSegsAux : Nat → List String → List String → Bool
  | 0, _, _ => false
  | fuel + 1, p, x =>
    match p, x with
    | [], [] => true
    | [], _ :: _ => false
    | "**" :: ps, [] => matchSegsAux fuel ps []
    | "**" :: ps, y :: ys =>
      matchSegsAux fuel ps (y :: ys) || matchSegsAux fuel ("**" :: ps) ys
    | _ :: _, [] => false
    | q :: ps, y :: ys => segMatch q.toList y.toList && matchSegsAux fuel ps ys

/-- Segment-level glob match with adequate fuel. -/
def matchSegs (p x : List String) : Bool :=
  matchSegsAux (p.length + x.length + 1) p x

/-- Modelled from the spec: the external `picomatch` library (not part of
this repository's sources) compiled to the spec's glob semantics —
"standard shell-style globs with `**` matching across path segments"
(§4.2).  Used only to instantiate the matcher-parametric theorems at
concrete patterns. -/
def picomatchModel (pattern path : String) : Bool :=
  matchSegs (splitSegs pattern '/') (splitSegs path '/')

/-- Claim C4: for the filter built by `createSourceFilter`, exclusion
dominates inclusion unconditionally — any exclude match on the
project-relative path yields `false` no matter what the include patterns
say; with no exclude match the filter returns the disjunction of the
include matches when include patterns were supplied, and `true` when
none were. -/
theorem createSourceFilter_exclude_dominates (pm : String → String → Bool)
    (inc exc : List String) (cwd p : String) :
    ((exc.map normalizePattern).any
        (fun pat => pm pat (toRelativePath p cwd)) = true →
      createSourceFilter pm inc exc cwd p = false) ∧
    ((exc.map normalizePattern).any
        (fun pat => pm pat (toRelativePath p cwd)) = false → inc ≠ [] →
      createSourceFilter pm inc exc cwd p =
        (inc.map normalizePattern).any
          (fun pat => pm pat (toRelativePath p cwd))) ∧
    ((exc.map normalizePattern).any
        (fun pat => pm pat (toRelativePath p cwd)) = false → inc = [] →
      createSourceFilter pm inc exc cwd p = true) := by
  have hany : ∀ (pats : List String) (r : String),
      (pats.map pm).any (fun m => m r) = pats.any (fun pat => pm pat r) := by
    intro pats r
    induction pats with
    | nil => rfl
    | cons a tl ih => simp [List.any_cons, ih]
  have heval : createSourceFilter pm inc exc cwd p =
      (if (exc.map normalizePattern).any
          (fun pat => pm pat (toRelativePath p cwd)) = true then false
       else if 0 < inc.length then
         (inc.map normalizePattern).any
           (fun pat => pm pat (toRelativePath p cwd))
       else true) := by
    show (if ((exc.map normalizePattern).map pm).any
          (fun m => m (toRelativePath p cwd)) = true then false
        else if 0 < ((inc.map normalizePattern).map pm).length then
          ((inc.map normalizePattern).map pm).any
            (fun m => m (toRelativePath p cwd))
        else true) = _
    rw [hany, hany, List.length_map, List.length_map]
  refine ⟨fun h => ?_, fun h hne => ?_, fun h hnil => ?_⟩
  · rw [heval, if_pos h]
  · rw [heval, if_neg (by simp [h]), if_pos (List.length_pos.mpr hne)]
  · rw [heval, if_neg (by simp [h]), if_neg (by simp [hnil])]

/-- Witness for C4, the spec's concrete scenario: include
`["src/**/*"]`, exclude `["src/excluded.ts"]` — the excluded file is
rejected and the included one accepted. -/
theorem createSourceFilter_exclude_dominates_witness :
    createSourceFilter picomatchModel ["src/**/*"] ["src/excluded.ts"]
        "/proj" "src/excluded.ts" = false ∧
      createSourceFilter picomatchModel ["src/**/*"] ["src/excluded.ts"]
        "/proj" "src/included.ts" = true := by
  constructor
  · exact (createSourceFilter_exclude_dominates picomatchModel
      ["src/**/*"] ["src/excluded.ts"] "/proj" "src/excluded.ts").1
      (by decide)
  · rw [(createSourceFilter_exclude_dominates picomatchModel
      ["src/**/*"] ["src/excluded.ts"] "/proj" "src/included.ts").2.1
      (by decide) (by decide)]
    decide

/-- The fully-resolved configuration (`RequiredMonocartCoverageOptions`
in `src/types.ts`).  The `onEnd` callback is opaque and never invoked
during resolution, so it is carried as `Unit`. -/
structure RequiredMonocartCoverageOptions where
  name : String
  outputDir : String
  reports : List String
  lcov : Bool
  sourcePath : String
  sourceFilter : String → Bool
  cleanCache : Bool
  logging : String
  css : Bool
  onEnd : Unit

/-- A user-supplied (partial) configuration (`MonocartCoverageOptions`
in `src/types.ts`): every field optional; an absent field (`none`) is
not spread over the accumulated configuration. -/
structure MonocartCoverageOptions where
  name : Option String := none
  outputDir : Option String := none
  reports : Option (List String) := none
  lcov : Option Bool := none
  sourcePath : Option String := none
  sourceFilter : Option (String → Bool) := none
  cleanCache : Option Bool := none
  logging : Option String := none
  css : Option Bool := none

/-- `DEFAULT_CONFIG` (`src/config.ts` lines 55-67). -/
def DEFAULT_CONFIG : RequiredMonocartCoverageOptions :=
  { name := "Vitest Monocart Coverage"
    outputDir := "./coverage"
    reports := ["v8", "console-details"]
    lcov := true
    sourcePath := "src"
    sourceFilter := fun _ => true
    cleanCache := true
    logging := "info"
    css := true
    onEnd := () }

/-- JavaScript object spread `{...config, ...overrides}`: each field
present in the overrides replaces the accumulated value. -/
def mergeOptions (c : RequiredMonocartCoverageOptions)
    (o : MonocartCoverageOptions) : RequiredMonocartCoverageOptions :=
  { name := o.name.getD c.name
    outputDir := o.outputDir.getD c.outputDir
    reports := o.reports.getD c.reports
    lcov := o.lcov.getD c.lcov
    sourcePath := o.sourcePath.getD c.sourcePath
    sourceFilter := o.sourceFilter.getD c.sourceFilter
    cleanCache := o.cleanCache.getD c.cleanCache
    logging := o.logging.getD c.logging
    css := o.css.getD c.css
    onEnd := () }

/-- The host-runner (Vitest) settings read by the resolver
(`src/config.ts` lines 258-288): the coverage `reportsDirectory`,
`clean` flag, project `name`, and the coverage include/exclude glob
patterns (absent pattern keys are the empty list, matching
`'include' in coverage ? coverage.include || [] : []`). -/
structure VitestCtx where
  reportsDirectory : Option String
  clean : Option Bool
  name : Option String
  includePatterns : List String
  excludePatterns : List String

/-- The anchored suffix strip `includePatterns[0]?.replace(/\/\*\*\/\*$/, '')`:
remove one trailing `/**/*`. -/
def stripGlobStarSuffix (s : String) : String :=
  if jsEndsWith s "/**/*" then s.dropRight 5 else s

/-- `if (vitestCtx.config.coverage.reportsDirectory)` — a truthy (non-empty)
reports directory overrides `outputDir` (`src/config.ts` lines 259-261). -/
def applyReportsDirectory (c : RequiredMonocartCoverageOptions)
    (rd : Option String) : RequiredMonocartCoverageOptions :=
  match rd with
  | some s => if s = "" then c else { c with outputDir := s }
  | none => c

/-- `if (vitestCtx.config.coverage.clean !== undefined)` — a defined
`clean` flag (even `false`) overrides `cleanCache`
(`src/config.ts` lines 262-264). -/
def applyCleanFlag (c : RequiredMonocartCoverageOptions)
    (clean : Option Bool) : RequiredMonocartCoverageOptions :=
  match clean with
  | some b => { c with cleanCache := b }
  | none => c

/-- `if (vitestCtx.config.name)` — a truthy (non-empty) project name
becomes `"<name> Coverage"` (`src/config.ts` lines 265-267). -/
def applyProjectName (c : RequiredMonocartCoverageOptions)
    (name : Option String) : RequiredMonocartCoverageOptions :=
  match name with
  | some s => if s = "" then c else { c with name := s ++ " Coverage" }
  | none => c

/-- The include/exclude inheritance step (`src/config.ts` lines 269-288):
a non-empty include list sets `sourcePath` from its first pattern
(trailing `/**/*` trimmed), and any patterns at all install a
`createSourceFilter`-built source filter. -/
def applyPatterns (pm : String → String → Bool) (cwd : String)
    (c : RequiredMonocartCoverageOptions) (inc exc : List String) :
    RequiredMonocartCoverageOptions :=
  let c4 := if inc.length > 0 then
      { c with sourcePath := stripGlobStarSuffix (inc.headD "") }
    else c
  if inc.length > 0 ∨ exc.length > 0 then
    { c4 with sourceFilter := createSourceFilter pm inc exc cwd }
  else c4

/-- The Vitest-based configuration step of `resolveMonocartConfig`
(`src/config.ts` lines 258-288), in the source's statement order. -/
def applyVitestConfig (pm : String → String → Bool) (cwd : String)
    (c : RequiredMonocartCoverageOptions) (v : VitestCtx) :
    RequiredMonocartCoverageOptions :=
  applyPatterns pm cwd
    (applyProjectName (applyCleanFlag (applyReportsDirectory c
      v.reportsDirectory) v.clean) v.name)
    v.includePatterns v.excludePatterns

/-- `resolveMonocartConfig` (`src/config.ts` lines 217-296): start from
`DEFAULT_CONFIG`; spread the first successfully loaded and validated
`monocart.config.*` file (the filesystem walk and dynamic import live
outside the embedding — `fileConfig` is that file's content, `none` when
no file loads); apply the Vitest-derived settings; finally spread the
explicit `customOptions` with highest priority. -/
def resolveMonocartConfig (pm : String → String → Bool)
    (fileConfig : Option MonocartCoverageOptions)
    (vitestCtx : Option VitestCtx)
    (customOptions : Option MonocartCoverageOptions)
    (cwd : String) : RequiredMonocartCoverageOptions :=
  let config := DEFAULT_CONFIG
  let config := match fileConfig with
    | some f => mergeOptions config f
    | none => config
  let config := match vitestCtx with
    | some v => applyVitestConfig pm cwd config v
    | none => config
  match customOptions with
  | some o => mergeOptions config o
  | none => config

/-- The Vitest step never touches the `css` field. -/
lemma applyVitestConfig_css (pm : String → String → Bool) (cwd : String)
    (c : RequiredMonocartCoverageOptions) (v : VitestCtx) :
    (applyVitestConfig pm cwd c v).css = c.css := by
  have h1 : ∀ c rd, (applyReportsDirectory c rd).css = c.css := by
    intro c rd
    cases rd with
    | none => rfl
    | some s => simp only [applyReportsDirectory]; split_ifs <;> rfl
  have h2 : ∀ c cl, (applyCleanFlag c cl).css = c.css := by
    intro c cl; cases cl <;> rfl
  have h3 : ∀ c n, (applyProjectName c n).css = c.css := by
    intro c n
    cases n with
    | none => rfl
    | some s => simp only [applyProjectName]; split_ifs <;> rfl
  have h4 : ∀ c inc exc, (applyPatterns pm cwd c inc exc).css = c.css := by
    intro c inc exc
    simp only [applyPatterns]
    split_ifs <;> rfl
  simp only [applyVitestConfig, h4, h3, h2, h1]

/-- Counterexample to claim C6: with no config file, no host settings
and no explicit overrides, the resolved configuration has `css = true`,
not `false` as the spec's defaults table states (`DEFAULT_CONFIG` in
`src/config.ts` sets `css: true`, and the repository's own unit test
asserts that default). -/
theorem resolveMonocartConfig_css_default_cex :
    (resolveMonocartConfig picomatchModel none none none "/proj").css = true ∧
      (resolveMonocartConfig picomatchModel none none none "/proj").css
        ≠ false := by
  exact ⟨rfl, by decide⟩

/-- Claim C6 (amended): when neither the loaded config file nor the
explicit overrides supply a `css` value (the host settings can never
supply one), the resolved configuration has `css = true`. -/
theorem resolveMonocartConfig_css_defaults_true
    (pm : String → String → Bool) (fc : Option MonocartCoverageOptions)
    (vc : Option VitestCtx) (co : Option MonocartCoverageOptions)
    (cwd : String) (hf : ∀ f, fc = some f → f.css = none)
    (hc : ∀ o, co = some o → o.css = none) :
    (resolveMonocartConfig pm fc vc co cwd).css = true := by
  have hbase : ∀ c : RequiredMonocartCoverageOptions,
      ∀ o : MonocartCoverageOptions, o.css = none →
        (mergeOptions c o).css = c.css := by
    intro c o h
    simp [mergeOptions, h]
  simp only [resolveMonocartConfig]
  cases fc with
  | none =>
    cases vc with
    | none =>
      cases co with
      | none => rfl
      | some o => rw [hbase _ o (hc o rfl)]; rfl
    | some v =>
      cases co with
      | none => rw [applyVitestConfig_css]; rfl
      | some o => rw [hbase _ o (hc o rfl), applyVitestConfig_css]; rfl
  | some f =>
    cases vc with
    | none =>
      cases co with
      | none => rw [hbase _ f (hf f rfl)]; rfl
      | some o => rw [hbase _ o (hc o rfl), hbase _ f (hf f rfl)]; rfl
    | some v =>
      cases co with
      | none => rw [applyVitestConfig_css, hbase _ f (hf f rfl)]; rfl
      | some o =>
        rw [hbase _ o (hc o rfl), applyVitestConfig_css,
          hbase _ f (hf f rfl)]; rfl

/-- Witness for amended C6: the all-defaults resolution has `css = true`. -/
theorem resolveMonocartConfig_css_defaults_true_witness :
    (resolveMonocartConfig picomatchModel none none none "/proj").css
      = true :=
  resolveMonocartConfig_css_defaults_true picomatchModel none none none
    "/proj" (fun _ h => nomatch h) (fun _ h => nomatch h)

/-- One transform-cache value: the compiled code and the optional source
map (`{code, map}` in Vite's fetch cache, as read by
`src/provider.ts`). -/
structure TransformResult where
  code : String
  map : Option SourceMap
deriving DecidableEq, Repr

/-- One fetch-cache slot; `normalizeTransformResults` reads its `result`
field. -/
structure FetchCacheValue where
  result : TransformResult
deriving DecidableEq, Repr

/-- A fetch cache: a map (unique keys) from clean file path to cached
value, in insertion order. -/
abbrev FetchCache := List (String × FetchCacheValue)

/-- The host's vite-node state as read by the in-process adapter
(`src/provider.ts` lines 107-112): the per-transform-mode caches
(`fetchCaches`, keyed by mode) and the single global cache
(`fetchCache`). -/
structure ViteNodeState where
  fetchCaches : List (String × FetchCache)
  fetchCache : Option FetchCache

/-- The cache choice `transformMode ? viteNode?.fetchCaches?.[transformMode]
: viteNode?.fetchCache` (`src/provider.ts` lines 110-112).  A truthy
(non-empty) mode reads only the mode-keyed table — a missing key yields
`undefined`, with no fallback; a falsy mode reads the global cache. -/
def selectFetchCache (vn : Option ViteNodeState) (mode : Option String) :
    Option FetchCache :=
  match mode with
  | some m =>
    if m = "" then vn.bind ViteNodeState.fetchCache
    else vn.bind fun v => List.lookup m v.fetchCaches
  | none => vn.bind ViteNodeState.fetchCache

/-- `normalizeTransformResults` (`src/provider.ts` lines 205-213): map
each cache slot to its `result`; an absent cache yields the empty map. -/
def normalizeTransformResults (fc : Option FetchCache) :
    List (String × TransformResult) :=
  match fc with
  | none => []
  | some l => l.map fun kv => (kv.1, kv.2.result)

/-- Find the first occurrence of `pat` inside a character list; return
the text before it and the text after it. -/
def splitAtInfix? (pat : List Char) : List Char → Option (List Char × List Char)
  | [] => if pat.isEmpty then some ([], []) else none
  | l@(c :: tl) =>
    if pat.isPrefixOf l then some ([], l.drop pat.length)
    else
      match splitAtInfix? pat tl with
      | some (pre, post) => some (c :: pre, post)
      | none => none

/-- Scheme validity for the URL model: a letter followed by letters,
digits, `+`, `-` or `.`. -/
def schemeOkChars : List Char → Bool
  | [] => false
  | c :: rest =>
    c.isAlpha && rest.all fun d => d.isAlphanum || d = '+' || d = '-' || d = '.'

/-- Model of `new URL(url).pathname` for hierarchical
`scheme://authority/path` URLs (the shapes the adapters feed it:
`file://` and `http(s)://` URLs); any other string fails to parse
(`none`), as the `URL` constructor throws there and the caller catches. -/
def urlPathname? (url : String) : Option String :=
  match splitAtInfix? "://".toList url.toList with
  | none => none
  | some (schemeChars, rest) =>
    if schemeOkChars schemeChars then
      let afterAuthority := rest.dropWhile fun c => c != '/'
      if afterAuthority.isEmpty then some "/"
      else some (String.mk (afterAuthority.takeWhile fun c =>
        c != '?' && c != '#'))
    else none

/-- JavaScript truthiness of the optional `source` field
(`if (entry.source) return`): absent or empty string is falsy. -/
def strOptTruthy : Option String → Bool
  | none => false
  | some s => s ≠ ""

namespace MonocartCoverageProvider

/-- `formatPath` (`src/provider.ts` lines 186-188): backslashes to
forward slashes; the empty (falsy) string is returned as is. -/
def formatPath (str : String) : String :=
  if str = "" then str else backslashToSlash str

/-- `relativePath` (`src/provider.ts` lines 193-198): `path.relative`
from the working directory, forward-slashed. -/
def relativePath (cwd p : String) : String :=
  formatPath (pathRelative cwd p cwd)

/-- The per-entry enrichment body of `onAfterSuiteRun`
(`src/provider.ts` lines 116-143): skip entries with a truthy `source`;
parse the url (unparsable urls pass through); look the formatted
pathname up in the transform map (misses pass through); on a hit set
`scriptOffset` to `entry.startOffset || 185`, set `source` to the cached
code, and when a map was cached rewrite its `sources` to the single
cwd-relative path and attach it. -/
def enrichEntry (cwd : String) (cache : List (String × TransformResult))
    (e : CoverageEntry) : CoverageEntry :=
  if strOptTruthy e.source then e
  else
    match urlPathname? e.url with
    | none => e
    | some pn =>
      let filePath := formatPath pn
      match List.lookup filePath cache with
      | none => e
      | some r =>
        let wrapperLength : Nat :=
          match e.startOffset with
          | some n => if n = 0 then 185 else n
          | none => 185
        let e1 := { e with
          scriptOffset := some wrapperLength
          source := some r.code }
        match r.map with
        | some m => { e1 with
            sourceMap := some { m with
              sources := [relativePath cwd filePath] } }
        | none => e1

/-- `MonocartCoverageProvider.onAfterSuiteRun`
(`src/provider.ts` lines 99-152): select the fetch cache for the suite's
transform mode, normalize it, enrich every entry, and forward the full
batch to the reporter's `addCoverageData`.  A `meta.coverage` of `none`
models the absent-coverage case, where reading `.result` throws and the
surrounding catch leaves the reporter untouched.  Returns the reporter
state and the batch as forwarded. -/
def onAfterSuiteRun (cwd : String) (vn : Option ViteNodeState)
    (transformMode : Option String) (rst : ReporterState)
    (coverage : Option (List CoverageEntry)) :
    ReporterState × List CoverageEntry :=
  match coverage with
  | none => (rst, [])
  | some coverageData =>
    let transformResults :=
      normalizeTransformResults (selectFetchCache vn transformMode)
    let enriched := coverageData.map (enrichEntry cwd transformResults)
    (MonocartReporter.addCoverageData rst enriched, enriched)

end MonocartCoverageProvider

/-- Enrichment against an empty transform map passes every entry through
unchanged. -/
lemma enrichEntry_empty_cache (cwd : String) (e : CoverageEntry) :
    MonocartCoverageProvider.enrichEntry cwd [] e = e := by
  simp only [MonocartCoverageProvider.enrichEntry]
  split_ifs with h
  · rfl
  · cases hu : urlPathname? e.url <;> simp [hu, List.lookup]

/-- Claim C5 (amended): the cache choice has no fallback — with a truthy
transform mode only the mode-keyed table is consulted (a missing mode
yields no cache at all, and every entry of that suite passes through
`onAfterSuiteRun` unenriched even if its path sits in the global cache);
the global cache is consulted only when no mode is given. -/
theorem selectFetchCache_no_global_fallback (vn : Option ViteNodeState)
    (m cwd : String) (rst : ReporterState) (l : List CoverageEntry)
    (hm : m ≠ "") :
    (selectFetchCache vn (some m) =
        vn.bind fun v => List.lookup m v.fetchCaches) ∧
      (selectFetchCache vn none = vn.bind ViteNodeState.fetchCache) ∧
      ((vn.bind fun v => List.lookup m v.fetchCaches) = none →
        (MonocartCoverageProvider.onAfterSuiteRun cwd vn (some m) rst
          (some l)).2 = l) := by
  refine ⟨by simp [selectFetchCache, hm], rfl, fun hnone => ?_⟩
  have hmap : ∀ ls : List CoverageEntry,
      ls.map (MonocartCoverageProvider.enrichEntry cwd []) = ls := by
    intro ls
    induction ls with
    | nil => rfl
    | cons a tl ih => simp [enrichEntry_empty_cache, ih]
  simp only [MonocartCoverageProvider.onAfterSuiteRun, selectFetchCache,
    if_neg hm, hnone, normalizeTransformResults]
  exact hmap l

/-- The cached transform entry `{code: "x", map: null}` of the spec's
in-process scenario. -/
def trX : TransformResult := { code := "x", map := none }

/-- A vite-node state with an empty mode-keyed table but a populated
global cache. -/
def vn5 : ViteNodeState :=
  { fetchCaches := []
    fetchCache := some [("/proj/src/a.ts", { result := trX })] }

/-- A sourceless entry whose url resolves to the cached path. -/
def e5 : CoverageEntry :=
  { scriptId := "5", url := "file:///proj/src/a.ts", source := none,
    startOffset := none, endOffset := none, scriptOffset := none,
    sourceMap := none, functions := FunctionsField.arr [] }

/-- Counterexample to claim C5: the suite runs with mode `"ssr"`, no
mode-keyed cache for `"ssr"` exists, and the global cache contains the
entry's path — yet `onAfterSuiteRun` forwards the entry unenriched
(`source` still absent), because the lookup never falls back to the
global cache. -/
theorem onAfterSuiteRun_no_fallback_cex :
    vn5.fetchCache = some [("/proj/src/a.ts", { result := trX })] ∧
      List.lookup "ssr" vn5.fetchCaches = none ∧
      strOptTruthy e5.source = false ∧
      urlPathname? e5.url = some "/proj/src/a.ts" ∧
      (MonocartCoverageProvider.onAfterSuiteRun "/proj" (some vn5)
        (some "ssr") ReporterState.init (some [e5])).2 = [e5] ∧
      e5.source = none := by
  exact ⟨rfl, rfl, rfl, by decide, by decide, rfl⟩

/-- Witness for amended C5 at the same concrete state: the theorem's
conclusion applied to the counterexample's inputs. -/
theorem selectFetchCache_no_global_fallback_witness :
    (MonocartCoverageProvider.onAfterSuiteRun "/proj" (some vn5)
      (some "ssr") ReporterState.init (some [e5])).2 = [e5] :=
  (selectFetchCache_no_global_fallback (some vn5) "ssr" "/proj"
    ReporterState.init [e5] (by decide)).2.2 (by decide)

/-- Claim C7 (amended): inside `onAfterSuiteRun` every entry is enriched
by `enrichEntry` against the selected transform map, and for an entry
with no truthy `source`, a parsable url and a transform-map hit: its
`source` becomes the cached compiled code; its `scriptOffset` becomes
its own declared wrapper offset when that offset is non-zero, and 185
when the entry declares none — or declares the falsy offset 0; and when
a map was cached its rewritten `sources` array holds exactly the
cwd-relative path. -/
theorem enrichEntry_enriches (cwd : String)
    (cache : List (String × TransformResult)) (e : CoverageEntry)
    (pn : String) (r : TransformResult)
    (hs : strOptTruthy e.source = false)
    (hu : urlPathname? e.url = some pn)
    (hl : List.lookup (MonocartCoverageProvider.formatPath pn) cache
      = some r) :
    (∀ (vn : Option ViteNodeState) (mode : Option String)
        (rst : ReporterState) (l : List CoverageEntry),
      (MonocartCoverageProvider.onAfterSuiteRun cwd vn mode rst
          (some l)).2 =
        l.map (MonocartCoverageProvider.enrichEntry cwd
          (normalizeTransformResults (selectFetchCache vn mode)))) ∧
    ((MonocartCoverageProvider.enrichEntry cwd cache e).source =
      some r.code) ∧
    ((e.startOffset = none ∨ e.startOffset = some 0) →
      (MonocartCoverageProvider.enrichEntry cwd cache e).scriptOffset =
        some 185) ∧
    (∀ n, e.startOffset = some n → n ≠ 0 →
      (MonocartCoverageProvider.enrichEntry cwd cache e).scriptOffset =
        some n) ∧
    (∀ m, r.map = some m →
      (MonocartCoverageProvider.enrichEntry cwd cache e).sourceMap =
        some { m with sources :=
          [MonocartCoverageProvider.relativePath cwd
            (MonocartCoverageProvider.formatPath pn)] }) ∧
    (r.map = none →
      (MonocartCoverageProvider.enrichEntry cwd cache e).sourceMap =
        e.sourceMap) := by
  refine ⟨fun vn mode rst l => rfl, ?_, ?_, ?_, ?_, ?_⟩
  · cases hr : r.map <;>
      simp [MonocartCoverageProvider.enrichEntry, hs, hu, hl, hr]
  · rintro (h0 | h0) <;> cases hr : r.map <;>
      simp [MonocartCoverageProvider.enrichEntry, hs, hu, hl, hr, h0]
  · intro n hn hne
    cases hr : r.map <;>
      simp [MonocartCoverageProvider.enrichEntry, hs, hu, hl, hr, hn, hne]
  · intro m hm
    simp [MonocartCoverageProvider.enrichEntry, hs, hu, hl, hm]
  · intro hm
    simp [MonocartCoverageProvider.enrichEntry, hs, hu, hl, hm]

/-- The vite-node state of the spec's in-process happy-path scenario:
mode `"ssr"` maps `/proj/src/a.ts` to `{code: "x", map: null}`. -/
def vn7 : ViteNodeState :=
  { fetchCaches := [("ssr", [("/proj/src/a.ts", { result := trX })])]
    fetchCache := none }

/-- The transform map the adapter builds from `vn7` for mode `"ssr"`. -/
def cache7 : List (String × TransformResult) :=
  normalizeTransformResults (selectFetchCache (some vn7) (some "ssr"))

/-- The happy-path entry: no source, parsable `file://` url, no declared
wrapper offset. -/
def e7 : CoverageEntry :=
  { scriptId := "7", url := "file:///proj/src/a.ts", source := none,
    startOffset := none, endOffset := none, scriptOffset := none,
    sourceMap := none, functions := FunctionsField.arr [] }

/-- An entry identical to `e7` but declaring a wrapper offset of `0`. -/
def e7zero : CoverageEntry :=
  { e7 with startOffset := some 0 }

/-- Counterexample to claim C7: an entry that *declares* the wrapper
offset `0` (and is otherwise enrichable: source absent, url parses,
cache hit) is enriched with `scriptOffset = 185`, not its declared
offset — `entry.startOffset || 185` treats the falsy `0` as absent. -/
theorem enrichEntry_zero_offset_cex :
    strOptTruthy e7zero.source = false ∧
      urlPathname? e7zero.url = some "/proj/src/a.ts" ∧
      List.lookup (MonocartCoverageProvider.formatPath "/proj/src/a.ts")
        cache7 = some trX ∧
      e7zero.startOffset = some 0 ∧
      (MonocartCoverageProvider.enrichEntry "/proj" cache7
        e7zero).scriptOffset = some 185 ∧
      ¬ (MonocartCoverageProvider.enrichEntry "/proj" cache7
        e7zero).scriptOffset = some 0 := by
  exact ⟨rfl, by decide, by decide, rfl, by decide, by decide⟩

/-- Witness for amended C7, the spec's happy-path scenario: the entry
with no declared offset is enriched to `source = "x"`,
`scriptOffset = 185`. -/
theorem enrichEntry_enriches_witness :
    (MonocartCoverageProvider.enrichEntry "/proj" cache7 e7).source =
        some trX.code ∧
      (MonocartCoverageProvider.enrichEntry "/proj" cache7 e7).scriptOffset
        = some 185 :=
  ⟨(enrichEntry_enriches "/proj" cache7 e7 "/proj/src/a.ts" trX rfl
      (by decide) (by decide)).2.1,
   (enrichEntry_enriches "/proj" cache7 e7 "/proj/src/a.ts" trX rfl
      (by decide) (by decide)).2.2.1 (Or.inl rfl)⟩

/-- Hexadecimal digit value (code points 48-57 are `0`-`9`, 65-70 are
`A`-`F`, 97-102 are `a`-`f`). -/
def hexDigit? (c : Char) : Option Nat :=
  let n := c.toNat
  if 48 ≤ n ∧ n ≤ 57 then some (n - 48)
  else if 65 ≤ n ∧ n ≤ 70 then some (n - 55)
  else if 97 ≤ n ∧ n ≤ 102 then some (n - 87)
  else none

/-- Read one `%hh` escape: its byte value and the remaining input. -/
def percentByte? : List Char → Option (Nat × List Char)
  | '%' :: h1 :: h2 :: rest =>
    match hexDigit? h1, hexDigit? h2 with
    | some a, some b => some (16 * a + b, rest)
    | _, _ => none
  | _ => none

/-- Read one UTF-8 continuation byte escape (`%80`-`%BF`): its payload
bits and the remaining input. -/
def utf8Cont? (l : List Char) : Option (Nat × List Char) :=
  match percentByte? l with
  | some (b, rest) =>
    if 0x80 ≤ b ∧ b < 0xC0 then some (b - 0x80, rest) else none
  | none => none

/-- Fuel-indexed percent-decoding: ASCII escapes decode to their byte;
multi-byte UTF-8 escape sequences decode to the encoded code point
(surrogate and out-of-range code points are rejected); a malformed
escape makes the whole decode fail, as `decodeURIComponent` throws
`URIError` there.  Every step consumes at least one character, so
`length + 1` fuel never runs out. -/
def decodeAux : Nat → List Char → Option (List Char)
  | 0, _ => none
  | _ + 1, [] => some []
  | fuel + 1, l@('%' :: _) =>
    match percentByte? l with
    | none => none
    | some (b, rest) =>
      if b < 0x80 then (decodeAux fuel rest).map (Char.ofNat b :: ·)
      else if 0xC2 ≤ b ∧ b ≤ 0xDF then
        match utf8Cont? rest with
        | some (c1, rest1) =>
          (decodeAux fuel rest1).map (Char.ofNat ((b - 0xC0) * 64 + c1) :: ·)
        | none => none
      else if 0xE0 ≤ b ∧ b ≤ 0xEF then
        match utf8Cont? rest with
        | some (c1, rest1) =>
          match utf8Cont? rest1 with
          | some (c2, rest2) =>
            let cp := (b - 0xE0) * 4096 + c1 * 64 + c2
            if 0x800 ≤ cp ∧ (cp < 0xD800 ∨ 0xDFFF < cp) then
              (decodeAux fuel rest2).map (Char.ofNat cp :: ·)
            else none
          | none => none
        | none => none
      else if 0xF0 ≤ b ∧ b ≤ 0xF4 then
        match utf8Cont? rest with
        | some (c1, rest1) =>
          match utf8Cont? rest1 with
          | some (c2, rest2) =>
            match utf8Cont? rest2 with
            | some (c3, rest3) =>
              let cp := (b - 0xF0) * 262144 + c1 * 4096 + c2 * 64 + c3
              if 0x10000 ≤ cp ∧ cp ≤ 0x10FFFF then
                (decodeAux fuel rest3).map (Char.ofNat cp :: ·)
              else none
            | none => none
          | none => none
        | none => none
      else none
  | fuel + 1, c :: rest => (decodeAux fuel rest).map (c :: ·)

/-- Model of the `decodeURIComponent` builtin: `none` models the thrown
`URIError` on malformed input. -/
def decodeURIComponent? (s : String) : Option String :=
  (decodeAux (s.length + 1) s.toList).map String.mk

/-- Replace the first occurrence of a pattern, leaving the string
unchanged when it does not occur. -/
def replaceFirstAux (pat rep : List Char) : List Char → List Char
  | [] => []
  | l@(c :: tl) =>
    if pat.isPrefixOf l then rep ++ l.drop pat.length
    else c :: replaceFirstAux pat rep tl

/-- JavaScript `String.prototype.replace` with a string pattern: only
the first occurrence is replaced (the empty pattern matches at the
start). -/
def jsReplaceFirst (s pat rep : String) : String :=
  if pat.isEmpty then rep ++ s
  else String.mk (replaceFirstAux pat.toList rep.toList s.toList)

/-- `shouldIncludeUrl` (`src/browser-runtime.ts` lines 26-46): reject
urls not under the origin; reject when the *raw full url* contains
`/node_modules/`; percent-decode the origin-stripped relative url
(`none` models the `URIError` propagating); reject the `__vitest_` and
`@vite/` marker prefixes; accept the rest. -/
def shouldIncludeUrl (url origin : String) : Option Bool :=
  if jsStartsWith url origin = false then some false
  else if jsIncludes url "/node_modules/" then some false
  else
    match decodeURIComponent? (jsReplaceFirst url (origin ++ "/") "") with
    | none => none
    | some relativeUrl =>
      if jsStartsWith relativeUrl "__vitest_" then some false
      else if jsStartsWith relativeUrl "@vite/" then some false
      else some true

/-- `normalizeUrl` (`src/browser-runtime.ts` lines 52-61): strip the
origin, percent-decode, and strip one leading `@fs/` marker. -/
def normalizeUrl (url origin : String) : Option String :=
  (decodeURIComponent? (jsReplaceFirst url (origin ++ "/") "")).map
    fun n => if jsStartsWith n "@fs/" then n.drop 4 else n

/-- Counterexample to claim C9: the claim's rules reject any URL whose
percent-decoded relative form contains `/node_modules/`, but the code
tests `/node_modules/` on the raw, undecoded full URL *before* decoding
— so a percent-encoded slash (`%2F`) hides the segment and the URL is
accepted. -/
theorem shouldIncludeUrl_encoded_slash_cex :
    decodeURIComponent? (jsReplaceFirst
        "http://localhost:3000/a%2Fnode_modules/b.js"
        ("http://localhost:3000" ++ "/") "") = some "a/node_modules/b.js" ∧
      jsIncludes "a/node_modules/b.js" "/node_modules/" = true ∧
      shouldIncludeUrl "http://localhost:3000/a%2Fnode_modules/b.js"
        "http://localhost:3000" = some true := by
  exact ⟨by decide, by decide, by decide⟩

/-- Claim C9 (amended): the code's URL filter rules, in order: (1) a URL
not under the origin is rejected; (2) a URL whose *raw, undecoded full
form* contains `/node_modules/` is rejected — this check runs before
percent-decoding and before origin-stripping, so it differs from the
claimed "relative decoded form" test exactly on percent-encoded inputs;
(3) a surviving URL has its origin-stripped form percent-decoded, and a
decoded relative URL starting with `__vitest_` or `@vite/` is rejected;
(4) everything else is accepted; and `normalizeUrl` strips one leading
`@fs/` from the decoded relative URL. -/
theorem shouldIncludeUrl_rules (url origin : String) :
    (jsStartsWith url origin = false →
      shouldIncludeUrl url origin = some false) ∧
    (jsStartsWith url origin = true →
      jsIncludes url "/node_modules/" = true →
      shouldIncludeUrl url origin = some false) ∧
    (∀ rel, jsStartsWith url origin = true →
      jsIncludes url "/node_modules/" = false →
      decodeURIComponent? (jsReplaceFirst url (origin ++ "/") "")
        = some rel →
      ((jsStartsWith rel "__vitest_" = true →
          shouldIncludeUrl url origin = some false) ∧
        (jsStartsWith rel "@vite/" = true →
          shouldIncludeUrl url origin = some false) ∧
        (jsStartsWith rel "__vitest_" = false →
          jsStartsWith rel "@vite/" = false →
          shouldIncludeUrl url origin = some true))) ∧
    (∀ rel, decodeURIComponent? (jsReplaceFirst url (origin ++ "/") "")
        = some rel →
      normalizeUrl url origin =
        some (if jsStartsWith rel "@fs/" then rel.drop 4 else rel)) := by
  refine ⟨fun h1 => ?_, fun h1 h2 => ?_, fun rel h1 h2 h3 => ⟨fun h4 => ?_,
    fun h4 => ?_, fun h4 h5 => ?_⟩, fun rel h3 => ?_⟩ <;>
    simp_all [shouldIncludeUrl, normalizeUrl]

/-- Witness for amended C9: the claim's five concrete checks, each
obtained from the rules theorem. -/
theorem shouldIncludeUrl_rules_witness :
    shouldIncludeUrl "http://localhost:3000/node_modules/x.js"
        "http://localhost:3000" = some false ∧
      shouldIncludeUrl "http://localhost:3000/__vitest_/y.js"
        "http://localhost:3000" = some false ∧
      shouldIncludeUrl "https://other.example/z.js"
        "http://localhost:3000" = some false ∧
      shouldIncludeUrl "http://localhost:3000/src/app.js"
        "http://localhost:3000" = some true ∧
      normalizeUrl "http://localhost:3000/@fs/abs/path/file.js"
        "http://localhost:3000" = some "abs/path/file.js" := by
  refine ⟨?_, ?_, ?_, ?_, ?_⟩
  · exact (shouldIncludeUrl_rules "http://localhost:3000/node_modules/x.js"
      "http://localhost:3000").2.1 (by decide) (by decide)
  · exact ((shouldIncludeUrl_rules "http://localhost:3000/__vitest_/y.js"
      "http://localhost:3000").2.2.1 "__vitest_/y.js" (by decide)
      (by decide) (by decide)).1 (by decide)
  · exact (shouldIncludeUrl_rules "https://other.example/z.js"
      "http://localhost:3000").1 (by decide)
  · exact ((shouldIncludeUrl_rules "http://localhost:3000/src/app.js"
      "http://localhost:3000").2.2.1 "src/app.js" (by decide) (by decide)
      (by decide)).2.2 (by decide) (by decide)
  · have h := (shouldIncludeUrl_rules
      "http://localhost:3000/@fs/abs/path/file.js"
      "http://localhost:3000").2.2.2 "@fs/abs/path/file.js" (by decide)
    rw [h]
    decide
